import Mathlib

/-!
Verification of the fsutil receive-side protocol processor
(`vendor/github.com/tonistiigi/fsutil/receive.go`).

The development shallowly embeds the receiver's packet-dispatch loop
(`receiver.run`), the content-pull callback (`receiver.asyncDataFunc`), the
ancestor-replay stack used by metadata-only transfers, and the final
metadata-log persistence step.  Machine integers (`uint32` mode bits,
identifiers, byte values) are modelled as `Nat`; byte buffers as `List Nat`;
the per-transfer mutable maps as association lists.

Concurrency note: in the Go source the dispatch loop, the disk-writer
callback (`asyncDataFunc`) and the walk/diff goroutine run concurrently; the
embedding serialises them, modelling each dispatch of one packet and each
callback phase as an atomic step.  The feed of entries handed to the
walker/change consumer via `w.update` is recorded in the `feed` field.
-/

namespace Fsutil

/-- `filepath.FromSlash`: replace each `/` by the platform separator
(`strings.ReplaceAll(path, "/", string(Separator))`). -/
def fromSlash (sep : Char) (s : String) : String :=
  String.mk (s.toList.map (fun c => if c = '/' then sep else c))

/-- `filepath.ToSlash`: replace each platform separator by `/`. -/
def toSlash (sep : Char) (s : String) : String :=
  String.mk (s.toList.map (fun c => if c = sep then '/' else c))

/-- `const metadataPath = ".fsutil-metadata"` (receive.go line 55). -/
def metadataPath : String := ".fsutil-metadata"

/-- The fields of `types.Stat` that the receiver inspects.  `mode` carries Go
`os.FileMode` bits in a `uint32`, modelled as `Nat`. -/
structure Stat where
  path : String
  mode : Nat
  size : Nat
  linkname : String
deriving Repr, DecidableEq

/-- Go `os.ModeDir`. -/
def modeDir : Nat := 2 ^ 31
/-- Go `os.ModeSymlink`. -/
def modeSymlink : Nat := 2 ^ 27
/-- Go `os.ModeType` = Dir | Symlink | NamedPipe | Socket | Device |
CharDevice | Irregular (the bits are pairwise disjoint, so the sum is the
bitwise or). -/
def modeType : Nat := 2 ^ 31 + 2 ^ 27 + 2 ^ 26 + 2 ^ 25 + 2 ^ 24 + 2 ^ 21 + 2 ^ 19

/-- Go `os.FileMode.IsDir`. -/
def isDirMode (m : Nat) : Bool := m &&& modeDir ≠ 0

/-- Go `os.FileMode` symlink test (`m & os.ModeSymlink != 0`). -/
def isSymlinkMode (m : Nat) : Bool := m &&& modeSymlink ≠ 0

/-- Modelled from the spec: `fileCanRequestData` is not under src/ (it lives in
the sender half of fsutil); per the spec only "entries whose type is eligible
to carry content (regular files)" are tracked, i.e. no type bit is set. -/
def fileCanRequestData (m : Nat) : Bool := m &&& modeType = 0

/-- The typed failures the receiver can return. -/
inductive Err where
  | fromSender (msg : String)
  | unrepresentablePath (path : String)
  | changesOutOfOrder (path last : String)
  | invalidLink (path target : String)
  | invalidFileRequestID (id : Nat)
  | invalidFileRequestPath (path : String)
  | doubleClose (id : Nat)
  | writeAfterClose (id : Nat)
  | sinkCloseError (msg : String)
  | eofErr
  | recvFail (msg : String)
deriving Repr, DecidableEq

/-- The error text observed by the caller of `Receive`.  An `Error` packet is
surfaced via `errors.Errorf("error from sender: %s", p.Data)`
(receive.go line 222). -/
def Err.message : Err → String
  | .fromSender m => "error from sender: " ++ m
  | .unrepresentablePath p => "unrepresentable path " ++ p
  | .changesOutOfOrder p l => "changes out of order: " ++ p ++ " " ++ l
  | .invalidLink p t => "invalid link " ++ p ++ " to unknown path: " ++ t
  | .invalidFileRequestID _ => "invalid file request"
  | .invalidFileRequestPath p => "invalid file request " ++ p
  | .doubleClose _ => "close of closed sink"
  | .writeAfterClose _ => "write on closed sink"
  | .sinkCloseError m => m
  | .eofErr => "EOF"
  | .recvFail m => m

/-- Strict lexicographic order on character lists. -/
def ltChars : List Char → List Char → Bool
  | [], [] => false
  | [], _ :: _ => true
  | _ :: _, [] => false
  | a :: as, b :: bs => if a < b then true else if b < a then false else ltChars as bs

/-- Strict lexicographic order on path strings. -/
def pathLess (a b : String) : Bool := ltChars a.toList b.toList

/-- Modelled from the spec: the ordering validator (`Validator` in fsutil's
validator.go, not under src/) "maintains the last-seen path; rejects an
incoming entry that is not strictly greater". -/
structure Validator where
  last : Option String
deriving Repr, DecidableEq

/-- Modelled from the spec: `observe` of the ordering validator — accept iff
the path is strictly lexicographically greater than the last-seen path. -/
def Validator.handleChange (v : Validator) (p : String) : Except Err Validator :=
  match v.last with
  | none => .ok ⟨some p⟩
  | some l =>
    if pathLess l p then .ok ⟨some p⟩ else .error (.changesOutOfOrder p l)

/-- Modelled from the spec: the hardlink validator (`Hardlinks` in fsutil's
hardlinks validator, not under src/) "maintains the set of paths seen so far
that are eligible link targets; rejects a hardlink entry whose target was not
already seen". -/
structure Hardlinks where
  seenFiles : List String
deriving Repr, DecidableEq

/-- Modelled from the spec: `observe` of the hardlink validator — directories
and symlinks are ignored; an entry with a link target (a hardlink) is accepted
iff the target is an already-seen eligible entry; other (regular) entries are
recorded as eligible link targets. -/
def Hardlinks.handleChange (v : Hardlinks) (p : String) (st : Stat) :
    Except Err Hardlinks :=
  if isDirMode st.mode || isSymlinkMode st.mode then .ok v
  else if st.linkname ≠ "" then
    if st.linkname ∈ v.seenFiles then .ok v
    else .error (.invalidLink p st.linkname)
  else .ok ⟨p :: v.seenFiles⟩

/-- `currentPath`: a native-form path paired with its (path-rewritten) stat. -/
structure CP where
  path : String
  stat : Stat
deriving Repr, DecidableEq

/-- The state of one per-identifier write sink (`wrappedWriteCloser` around the
disk writer's `io.WriteCloser`).  `closeErr` is the error the underlying
`Close` will report, fixed when the sink is handed in (abstracting the disk
writer's behaviour); `closed` records that the `Data` handler closed it. -/
structure Sink where
  written : List Nat
  closed : Bool
  closeErr : Option String
deriving Repr, DecidableEq

/-- Association-list lookup for the receiver's maps. -/
def lookupKey {α β : Type} [DecidableEq α] : List (α × β) → α → Option β
  | [], _ => none
  | (k, v) :: rest, a => if k = a then some v else lookupKey rest a

/-- Association-list delete (Go `delete(m, k)`). -/
def removeKey {α β : Type} [DecidableEq α] : List (α × β) → α → List (α × β)
  | [], _ => []
  | kv :: rest, a => if kv.1 = a then removeKey rest a else kv :: removeKey rest a

/-- Association-list overwrite (Go `m[k] = v`). -/
def insertKey {α β : Type} [DecidableEq α] (m : List (α × β)) (a : α) (v : β) :
    List (α × β) :=
  (a, v) :: removeKey m a

/-- `binary.LittleEndian.PutUint32` of `uint32(n)` as four bytes. -/
def le32 (n : Nat) : List Nat :=
  [n % 256, n / 256 % 256, n / 65536 % 256, n / 16777216 % 256]

/-- `filepath.Dir` restricted to the clean paths the protocol carries:
everything before the final separator (`.` when there is none, the root when
the prefix is empty). -/
def dirPath (sep : Char) (p : String) : String :=
  let cs := p.toList
  if cs.contains sep then
    let pre := ((cs.reverse.dropWhile (fun c => c ≠ sep)).tail).reverse
    if pre.isEmpty then String.singleton sep else String.mk pre
  else "."

/-- The ancestor stack trim loop (receive.go lines 273-279): pop until the top
of the stack is the entry's parent directory, or the stack is empty.  The top
of the stack is the head of the list. -/
def trimParents (parent : String) : List CP → List CP
  | [] => []
  | c :: rest => if c.path = parent then c :: rest else trimParents parent rest

/-- The receiver state touched by the dispatch loop and the callback:
`files` is the pending path-to-identifier table, `pipes` the per-identifier
sink table, `counter` the sequential identifier `i`, `metadataBuffer` and
`metadataParents` the metadata-only bookkeeping, `ov`/`hv` the validators,
`feed` the sequence of entries forwarded to the walker/change-consumer feed
via `w.update`, and `feedClosed` records `w.update(nil)`. -/
structure RState where
  files : List (String × Nat)
  pipes : List (Nat × Sink)
  counter : Nat
  metadataBuffer : List Nat
  metadataParents : List CP
  ov : Validator
  hv : Hardlinks
  feed : List CP
  feedClosed : Bool
deriving Repr, DecidableEq

/-- The receiver's initial state (`receiver` literal in `Receive` plus the
dispatch goroutine's `var i uint32 = 0`). -/
def initState : RState :=
  { files := [], pipes := [], counter := 0, metadataBuffer := [],
    metadataParents := [], ov := ⟨none⟩, hv := ⟨[]⟩, feed := [],
    feedClosed := false }

/-- The receiver configuration relevant to dispatch: the platform path
separator, the optional metadata-only pre-filter (`ReceiveOpt.MetadataOnly`),
and the opaque wire codec's `MarshalVT` for stats (assumed-correct generated
code, kept abstract). -/
structure Config where
  sep : Char
  metadataOnly : Option (String → Stat → Bool)
  marshal : Stat → List Nat

/-- The in-place rewrite `p.Stat.Path = path; p.Stat.Linkname =
filepath.FromSlash(p.Stat.Linkname)` (receive.go lines 253-254). -/
def rewriteStat (sep : Char) (st : Stat) : Stat :=
  { st with path := fromSlash sep st.path, linkname := fromSlash sep st.linkname }

/-- The body of the non-empty `PACKET_STAT` case after normalization and the
metadata-buffer append (receive.go lines 256-296): record the identifier for
content-eligible entries, increment the counter, run the ordering then the
hardlink validator, maintain the ancestor stack when a metadata filter is
configured, and forward to the feed.  The Go code updates `r.files` and `i`
before invoking the validators; as a validator failure aborts the transfer and
discards the state, the updates are gathered in the success branches here. -/
def statStep (cfg : Config) (s : RState) (st0 : Stat)
    (metadataTransfer metaOnly : Bool) : Except Err RState :=
  let path := fromSlash cfg.sep st0.path
  let st := rewriteStat cfg.sep st0
  let cp : CP := ⟨path, st⟩
  let files' := if !metaOnly && fileCanRequestData st.mode
    then insertKey s.files path s.counter else s.files
  match s.ov.handleChange path with
  | .error e => .error e
  | .ok ov' =>
    match s.hv.handleChange path st with
    | .error e => .error e
    | .ok hv' =>
      if metadataTransfer then
        let stk := trimParents (dirPath cfg.sep path) s.metadataParents
        let stk := if isDirMode st.mode then cp :: stk else stk
        if metaOnly then
          .ok { s with files := files', counter := s.counter + 1, ov := ov', hv := hv', metadataParents := stk }
        else
          .ok { s with files := files', counter := s.counter + 1, ov := ov', hv := hv', metadataParents := [], feed := s.feed ++ stk.reverse ++ [cp] }
      else
        .ok { s with files := files', counter := s.counter + 1, ov := ov', hv := hv', feed := s.feed ++ [cp] }

/-- The non-empty `PACKET_STAT` case (receive.go lines 231-296): normalize the
wire path and reject it if it does not round-trip; when a metadata filter is
configured, skip the reserved metadata path, append the length-prefixed
serialized record to the metadata buffer and evaluate the filter; then run
`statStep`. -/
def handleStat (cfg : Config) (s : RState) (st0 : Stat) : Except Err RState :=
  if toSlash cfg.sep (fromSlash cfg.sep st0.path) ≠ st0.path then
    .error (.unrepresentablePath st0.path)
  else
    match cfg.metadataOnly with
    | none => statStep cfg s st0 false false
    | some filt =>
      if fromSlash cfg.sep st0.path = metadataPath then .ok s
      else
        statStep cfg
          { s with metadataBuffer := s.metadataBuffer ++ le32 (cfg.marshal st0).length ++ cfg.marshal st0 }
          st0 true (!filt (fromSlash cfg.sep st0.path) st0)

/-- The `PACKET_DATA` case (receive.go lines 298-313): look up the sink for the
identifier (no sink is a protocol error), close it on an empty chunk
(propagating the close error), write through otherwise.  Writing to or closing
an already-closed sink fails with the underlying writer's error. -/
def handleData (s : RState) (id : Nat) (chunk : List Nat) : Except Err RState :=
  match lookupKey s.pipes id with
  | none => .error (.invalidFileRequestID id)
  | some sink =>
    if chunk.isEmpty then
      if sink.closed then .error (.doubleClose id)
      else
        match sink.closeErr with
        | some e => .error (.sinkCloseError e)
        | none => .ok { s with pipes := insertKey s.pipes id { sink with closed := true } }
    else
      if sink.closed then .error (.writeAfterClose id)
      else .ok { s with pipes := insertKey s.pipes id { sink with written := sink.written ++ chunk } }

/-- The state after the lookup-and-request phase of `asyncDataFunc` succeeded
for path `p` with identifier `id`: the pending entry is deleted and a fresh
open sink is registered (receive.go lines 357-363). -/
def asyncDataStarted (s : RState) (p : String) (id : Nat)
    (closeErr : Option String) : RState :=
  { s with files := removeKey s.files p,
           pipes := insertKey s.pipes id ⟨[], false, closeErr⟩ }

/-- The first phase of `asyncDataFunc` (receive.go lines 350-366): look up the
pending identifier for the path (error if absent), delete it from the pending
table, register the write sink, and send the `Request`.  On success the
returned identifier is the one carried by the `Request` sent; on error nothing
is sent. -/
def asyncDataStart (s : RState) (p : String) (closeErr : Option String) :
    Except Err (RState × Nat) :=
  match lookupKey s.files p with
  | none => .error (.invalidFileRequestPath p)
  | some id => .ok (asyncDataStarted s p id closeErr, id)

/-- The final phase of `asyncDataFunc` (receive.go lines 367-374): once the
sink has been closed without error, the identifier's sink-table entry is
removed. -/
def asyncDataFinish (s : RState) (id : Nat) : RState :=
  { s with pipes := removeKey s.pipes id }

/-- The packets the dispatch loop can receive. -/
inductive Packet where
  | stat (st : Option Stat)
  | req (id : Nat)
  | data (id : Nat) (chunk : List Nat)
  | fin
  | err (msg : String)
deriving Repr, DecidableEq

/-- One outcome of `conn.RecvMsg`: a message, end-of-stream (`io.EOF`), or
another receive failure. -/
inductive RecvEvent where
  | msg (p : Packet)
  | eof
  | fail (e : String)
deriving Repr, DecidableEq

/-- The result of the dispatch goroutine on a modelled event sequence:
returned nil, returned an error, or ran out of modelled events while still
waiting to receive. -/
inductive Outcome where
  | success (s : RState)
  | failed (e : Err) (s : RState)
  | incomplete (s : RState)
deriving Repr, DecidableEq

/-- The receiver state carried by an outcome. -/
def Outcome.state : Outcome → RState
  | .success s => s
  | .failed _ s => s
  | .incomplete s => s

/-- The drain loop entered on `PACKET_FIN` (receive.go lines 314-323): keep
receiving and discarding messages until `io.EOF` (success) or another receive
failure (returned as the error). -/
def drainFin (s : RState) : List RecvEvent → Outcome
  | [] => .incomplete s
  | .msg _ :: rest => drainFin s rest
  | .eof :: _ => .success s
  | .fail e :: _ => .failed (.recvFail e) s

/-- The dispatch loop of `receiver.run` (receive.go lines 200-326) over a
modelled sequence of receive events.  A receive failure in the main loop
(`io.EOF` included) is returned as an error; an `Error` packet aborts with the
wrapped sender message; an empty `Stat` closes the feed; `Request` packets are
ignored by the receiver's switch; `Finish` enters the drain loop. -/
def runLoop (cfg : Config) (s : RState) : List RecvEvent → Outcome
  | [] => .incomplete s
  | .eof :: _ => .failed .eofErr s
  | .fail e :: _ => .failed (.recvFail e) s
  | .msg p :: rest =>
    match p with
    | .err m => .failed (.fromSender m) s
    | .stat none => runLoop cfg { s with feedClosed := true } rest
    | .stat (some st) =>
      match handleStat cfg s st with
      | .error e => .failed e s
      | .ok s' => runLoop cfg s' rest
    | .data id chunk =>
      match handleData s id chunk with
      | .error e => .failed e s
      | .ok s' => runLoop cfg s' rest
    | .req _ => runLoop cfg s rest
    | .fin => drainFin s rest

/-- Filesystem effects of the post-loop persistence step. -/
inductive FsOp where
  | remove (path : String)
  | writeFile (path : String) (contents : List Nat)
deriving Repr, DecidableEq

/-- `filepath.Join` for a directory and a separator-free name. -/
def joinPath (sep : Char) (dir name : String) : String :=
  dir ++ String.singleton sep ++ name

/-- `receiver.run` around the dispatch loop (receive.go lines 328-348): after
a successful run, when a metadata filter was configured, remove any
pre-existing entry at the reserved metadata path inside the destination root
and write the accumulated metadata buffer there as a single file. -/
def runReceiver (cfg : Config) (dest : String) (events : List RecvEvent) :
    Outcome × List FsOp :=
  match runLoop cfg initState events with
  | .success s =>
    if cfg.metadataOnly.isSome then
      (.success s,
        [.remove (joinPath cfg.sep dest metadataPath),
         .writeFile (joinPath cfg.sep dest metadataPath) s.metadataBuffer])
    else (.success s, [])
  | o => (o, [])

/-- The first non-message receive event: `none` when every modelled event is a
message, `some none` for end-of-stream, `some (some e)` for a failure. -/
def firstCtl : List RecvEvent → Option (Option String)
  | [] => none
  | .msg _ :: rest => firstCtl rest
  | .eof :: _ => some none
  | .fail e :: _ => some (some e)

/-! ### Helper lemmas about the association-list maps and the embedding -/

theorem lookupKey_removeKey_self {α β : Type} [DecidableEq α]
    (m : List (α × β)) (a : α) : lookupKey (removeKey m a) a = none := by
  induction m with
  | nil => rfl
  | cons kv rest ih =>
    by_cases h : kv.1 = a
    · simpa [removeKey, h] using ih
    · simpa [removeKey, lookupKey, h] using ih

theorem lookupKey_insertKey_self {α β : Type} [DecidableEq α]
    (m : List (α × β)) (a : α) (v : β) :
    lookupKey (insertKey m a v) a = some v := by
  simp [insertKey, lookupKey]

theorem mem_removeKey {α β : Type} [DecidableEq α]
    {m : List (α × β)} {a : α} {kv : α × β} (h : kv ∈ removeKey m a) :
    kv ∈ m := by
  induction m with
  | nil => simp [removeKey] at h
  | cons kv' rest ih =>
    by_cases hk : kv'.1 = a
    · simp only [removeKey, if_pos hk] at h
      exact List.mem_cons_of_mem _ (ih h)
    · simp only [removeKey, if_neg hk, List.mem_cons] at h
      rcases h with h | h
      · exact h ▸ List.mem_cons_self _ _
      · exact List.mem_cons_of_mem _ (ih h)

theorem mem_insertKey {α β : Type} [DecidableEq α]
    {m : List (α × β)} {a : α} {v : β} {kv : α × β}
    (h : kv ∈ insertKey m a v) : kv = (a, v) ∨ kv ∈ m := by
  simp only [insertKey, List.mem_cons] at h
  rcases h with h | h
  · exact Or.inl h
  · exact Or.inr (mem_removeKey h)

@[simp] theorem rewriteStat_mode (sep : Char) (st : Stat) :
    (rewriteStat sep st).mode = st.mode := rfl

@[simp] theorem rewriteStat_path (sep : Char) (st : Stat) :
    (rewriteStat sep st).path = fromSlash sep st.path := rfl

/-- A successful `handleStat` implies the wire path round-trips. -/
theorem handleStat_ok_roundtrip {cfg : Config} {s : RState} {st0 : Stat}
    {s' : RState} (hok : handleStat cfg s st0 = .ok s') :
    toSlash cfg.sep (fromSlash cfg.sep st0.path) = st0.path := by
  by_contra h
  unfold handleStat at hok
  rw [if_pos h] at hok
  cases hok

/-- `handleStat` without a metadata filter reduces to the `statStep` core. -/
theorem handleStat_eq_none (cfg : Config) (s : RState) (st0 : Stat)
    (hrt : toSlash cfg.sep (fromSlash cfg.sep st0.path) = st0.path)
    (hmo : cfg.metadataOnly = none) :
    handleStat cfg s st0 = statStep cfg s st0 false false := by
  unfold handleStat
  rw [if_neg (fun hc => hc hrt), hmo]

/-- `handleStat` with a metadata filter, on a representable non-reserved path,
appends the length-prefixed serialized record to the metadata buffer and runs
the `statStep` core with the filter verdict. -/
theorem handleStat_eq_some (cfg : Config) (s : RState) (st0 : Stat)
    (filt : String → Stat → Bool)
    (hrt : toSlash cfg.sep (fromSlash cfg.sep st0.path) = st0.path)
    (hmo : cfg.metadataOnly = some filt)
    (hne : fromSlash cfg.sep st0.path ≠ metadataPath) :
    handleStat cfg s st0 =
      statStep cfg
        { s with metadataBuffer :=
            s.metadataBuffer ++ le32 (cfg.marshal st0).length ++ cfg.marshal st0 }
        st0 true (!filt (fromSlash cfg.sep st0.path) st0) := by
  unfold handleStat
  rw [if_neg (fun hc => hc hrt), hmo]
  exact if_neg hne

/-- An ordering-validator rejection aborts `statStep` with that error. -/
theorem statStep_ov_error (cfg : Config) (s : RState) (st0 : Stat)
    (mt mo : Bool) (e : Err)
    (h : s.ov.handleChange (fromSlash cfg.sep st0.path) = .error e) :
    statStep cfg s st0 mt mo = .error e := by
  simp only [statStep, h]

/-- A hardlink-validator rejection (after the ordering validator accepted)
aborts `statStep` with that error. -/
theorem statStep_hv_error (cfg : Config) (s : RState) (st0 : Stat)
    (mt mo : Bool) (ov' : Validator) (e : Err)
    (hov : s.ov.handleChange (fromSlash cfg.sep st0.path) = .ok ov')
    (hhv : s.hv.handleChange (fromSlash cfg.sep st0.path)
      (rewriteStat cfg.sep st0) = .error e) :
    statStep cfg s st0 mt mo = .error e := by
  simp only [statStep, hov, hhv]

/-- Success form of `statStep` outside metadata-only mode. -/
theorem statStep_ok_plain (cfg : Config) (s : RState) (st0 : Stat) (mo : Bool)
    (ov' : Validator) (hv' : Hardlinks)
    (hov : s.ov.handleChange (fromSlash cfg.sep st0.path) = .ok ov')
    (hhv : s.hv.handleChange (fromSlash cfg.sep st0.path)
      (rewriteStat cfg.sep st0) = .ok hv') :
    statStep cfg s st0 false mo =
      .ok { s with
        files := if !mo && fileCanRequestData st0.mode
          then insertKey s.files (fromSlash cfg.sep st0.path) s.counter
          else s.files,
        counter := s.counter + 1, ov := ov', hv := hv',
        feed := s.feed ++ [⟨fromSlash cfg.sep st0.path, rewriteStat cfg.sep st0⟩] } := by
  simp [statStep, hov, hhv]

/-- Success form of `statStep` in metadata-only mode for a filter-rejected
entry: the trimmed-and-pushed ancestor stack is retained, nothing is fed. -/
theorem statStep_ok_metaOnly (cfg : Config) (s : RState) (st0 : Stat)
    (ov' : Validator) (hv' : Hardlinks)
    (hov : s.ov.handleChange (fromSlash cfg.sep st0.path) = .ok ov')
    (hhv : s.hv.handleChange (fromSlash cfg.sep st0.path)
      (rewriteStat cfg.sep st0) = .ok hv') :
    statStep cfg s st0 true true =
      .ok { s with
        files := s.files,
        counter := s.counter + 1, ov := ov', hv := hv',
        metadataParents :=
          (if isDirMode st0.mode
            then (⟨fromSlash cfg.sep st0.path, rewriteStat cfg.sep st0⟩ :: trimParents (dirPath cfg.sep (fromSlash cfg.sep st0.path)) s.metadataParents)
            else trimParents (dirPath cfg.sep (fromSlash cfg.sep st0.path)) s.metadataParents) } := by
  simp [statStep, hov, hhv]

/-- Success form of `statStep` in metadata-only mode for a filter-accepted
entry: the (trimmed, possibly self-pushed) stack is flushed to the feed in
push order, the stack is cleared, and the entry itself is fed. -/
theorem statStep_ok_metaAccept (cfg : Config) (s : RState) (st0 : Stat)
    (ov' : Validator) (hv' : Hardlinks)
    (hov : s.ov.handleChange (fromSlash cfg.sep st0.path) = .ok ov')
    (hhv : s.hv.handleChange (fromSlash cfg.sep st0.path)
      (rewriteStat cfg.sep st0) = .ok hv') :
    statStep cfg s st0 true false =
      .ok { s with
        files := if fileCanRequestData st0.mode
          then insertKey s.files (fromSlash cfg.sep st0.path) s.counter
          else s.files,
        counter := s.counter + 1, ov := ov', hv := hv',
        metadataParents := [],
        feed := s.feed ++
          (if isDirMode st0.mode
            then (⟨fromSlash cfg.sep st0.path, rewriteStat cfg.sep st0⟩ :: trimParents (dirPath cfg.sep (fromSlash cfg.sep st0.path)) s.metadataParents)
            else trimParents (dirPath cfg.sep (fromSlash cfg.sep st0.path)) s.metadataParents).reverse ++
          [⟨fromSlash cfg.sep st0.path, rewriteStat cfg.sep st0⟩] } := by
  simp [statStep, hov, hhv]

/-- Complete characterization of a successful `handleStat` on a non-reserved
entry: both validators accepted and were recorded, the counter advanced by
one, the sink tables are untouched, and buffer/stack/files/feed evolve
according to the metadata-filter configuration and verdict. -/
theorem handleStat_ok_cases (cfg : Config) (s : RState) (st0 : Stat)
    {s' : RState}
    (hskip : cfg.metadataOnly.isSome = true →
      fromSlash cfg.sep st0.path ≠ metadataPath)
    (hok : handleStat cfg s st0 = .ok s') :
    ∃ ov' hv',
      s.ov.handleChange (fromSlash cfg.sep st0.path) = .ok ov' ∧
      s.hv.handleChange (fromSlash cfg.sep st0.path) (rewriteStat cfg.sep st0) = .ok hv' ∧
      s'.ov = ov' ∧ s'.hv = hv' ∧
      s'.counter = s.counter + 1 ∧ s'.pipes = s.pipes ∧
      s'.feedClosed = s.feedClosed ∧
      (match cfg.metadataOnly with
       | none =>
         s'.metadataBuffer = s.metadataBuffer ∧
         s'.metadataParents = s.metadataParents ∧
         s'.files = (if fileCanRequestData st0.mode
           then insertKey s.files (fromSlash cfg.sep st0.path) s.counter
           else s.files) ∧
         s'.feed = s.feed ++ [⟨fromSlash cfg.sep st0.path, rewriteStat cfg.sep st0⟩]
       | some filt =>
         s'.metadataBuffer =
           s.metadataBuffer ++ le32 (cfg.marshal st0).length ++ cfg.marshal st0 ∧
         (filt (fromSlash cfg.sep st0.path) st0 = true →
           s'.metadataParents = [] ∧
           s'.files = (if fileCanRequestData st0.mode
             then insertKey s.files (fromSlash cfg.sep st0.path) s.counter
             else s.files) ∧
           s'.feed = s.feed ++
             (if isDirMode st0.mode
               then (⟨fromSlash cfg.sep st0.path, rewriteStat cfg.sep st0⟩ :: trimParents (dirPath cfg.sep (fromSlash cfg.sep st0.path)) s.metadataParents)
               else trimParents (dirPath cfg.sep (fromSlash cfg.sep st0.path)) s.metadataParents).reverse ++
             [⟨fromSlash cfg.sep st0.path, rewriteStat cfg.sep st0⟩]) ∧
         (filt (fromSlash cfg.sep st0.path) st0 = false →
           s'.metadataParents =
             (if isDirMode st0.mode
               then (⟨fromSlash cfg.sep st0.path, rewriteStat cfg.sep st0⟩ :: trimParents (dirPath cfg.sep (fromSlash cfg.sep st0.path)) s.metadataParents)
               else trimParents (dirPath cfg.sep (fromSlash cfg.sep st0.path)) s.metadataParents) ∧
           s'.files = s.files ∧
           s'.feed = s.feed)) := by
  have hrt := handleStat_ok_roundtrip hok
  cases hmo : cfg.metadataOnly with
  | none =>
    rw [handleStat_eq_none cfg s st0 hrt hmo] at hok
    cases hov : s.ov.handleChange (fromSlash cfg.sep st0.path) with
    | error e =>
      rw [statStep_ov_error cfg s st0 false false e hov] at hok; cases hok
    | ok ov' =>
      cases hhv : s.hv.handleChange (fromSlash cfg.sep st0.path)
          (rewriteStat cfg.sep st0) with
      | error e =>
        rw [statStep_hv_error cfg s st0 false false ov' e hov hhv] at hok
        cases hok
      | ok hv' =>
        rw [statStep_ok_plain cfg s st0 false ov' hv' hov hhv] at hok
        injection hok with hok
        subst hok
        exact ⟨ov', hv', rfl, rfl, rfl, rfl, rfl, rfl, rfl, rfl, rfl, rfl, rfl⟩
  | some filt =>
    have hne : fromSlash cfg.sep st0.path ≠ metadataPath := by
      apply hskip; rw [hmo]; rfl
    rw [handleStat_eq_some cfg s st0 filt hrt hmo hne] at hok
    cases hov : s.ov.handleChange (fromSlash cfg.sep st0.path) with
    | error e =>
      rw [statStep_ov_error cfg
        { s with metadataBuffer :=
            s.metadataBuffer ++ le32 (cfg.marshal st0).length ++ cfg.marshal st0 }
        st0 true (!filt (fromSlash cfg.sep st0.path) st0) e hov] at hok
      cases hok
    | ok ov' =>
      cases hhv : s.hv.handleChange (fromSlash cfg.sep st0.path)
          (rewriteStat cfg.sep st0) with
      | error e =>
        rw [statStep_hv_error cfg
          { s with metadataBuffer :=
              s.metadataBuffer ++ le32 (cfg.marshal st0).length ++ cfg.marshal st0 }
          st0 true (!filt (fromSlash cfg.sep st0.path) st0) ov' e hov hhv] at hok
        cases hok
      | ok hv' =>
        cases hfl : filt (fromSlash cfg.sep st0.path) st0 with
        | true =>
          rw [hfl, Bool.not_true] at hok
          rw [statStep_ok_metaAccept cfg
            { s with metadataBuffer :=
                s.metadataBuffer ++ le32 (cfg.marshal st0).length ++ cfg.marshal st0 }
            st0 ov' hv' hov hhv] at hok
          injection hok with hok
          subst hok
          exact ⟨ov', hv', rfl, rfl, rfl, rfl, rfl, rfl, rfl, rfl,
            fun _ => ⟨rfl, rfl, rfl⟩,
            fun hc => absurd hfl (by rw [hc]; exact Bool.false_ne_true)⟩
        | false =>
          rw [hfl, Bool.not_false] at hok
          rw [statStep_ok_metaOnly cfg
            { s with metadataBuffer :=
                s.metadataBuffer ++ le32 (cfg.marshal st0).length ++ cfg.marshal st0 }
            st0 ov' hv' hov hhv] at hok
          injection hok with hok
          subst hok
          exact ⟨ov', hv', rfl, rfl, rfl, rfl, rfl, rfl, rfl, rfl,
            fun hc => absurd hc (by rw [hfl]; exact Bool.false_ne_true),
            fun _ => ⟨rfl, rfl, rfl⟩⟩

/-- The dispatch loop on a non-empty `Stat` packet. -/
theorem runLoop_stat (cfg : Config) (s : RState) (st0 : Stat)
    (rest : List RecvEvent) :
    runLoop cfg s (.msg (.stat (some st0)) :: rest) =
      match handleStat cfg s st0 with
      | .error e => .failed e s
      | .ok s' => runLoop cfg s' rest := rfl

/-! ### Shared concrete instances used by witnesses and counterexamples -/

/-- A unix-like receiver with no metadata filter. -/
def cfgUnix : Config :=
  { sep := '/', metadataOnly := none, marshal := fun st => [st.path.length] }

/-- A unix-like receiver whose metadata filter accepts everything. -/
def cfgMetaAll : Config :=
  { sep := '/', metadataOnly := some (fun _ _ => true),
    marshal := fun st => [st.path.length] }

/-- A directory entry named `dir`. -/
def statDir : Stat := { path := "dir", mode := modeDir, size := 0, linkname := "" }

/-- A regular-file entry named `a`. -/
def statA : Stat := { path := "a", mode := 420, size := 3, linkname := "" }

/-- The filter-independent bookkeeping of the receiver state: metadata
buffer, identifier counter, and the two validator states. -/
def projBook (s : RState) : List Nat × Nat × Validator × Hardlinks :=
  (s.metadataBuffer, s.counter, s.ov, s.hv)

/-- A windows-like receiver (`\` is the platform separator). -/
def cfgWin : Config :=
  { sep := '\\', metadataOnly := none, marshal := fun st => [st.path.length] }

/-- A wire path embedding a backslash, unrepresentable when `\` is the
platform separator. -/
def statBackslash : Stat :=
  { path := "foo/bar\\baz", mode := 420, size := 0, linkname := "" }

/-! ### The claims -/

/-- **C1** (evaluation at the failing input): with a metadata-only pre-filter
configured and accepting everything, a single accepted directory entry `dir`
is forwarded to the walker/change-consumer feed twice — once from the
ancestor-stack flush (receive.go pushes the entry itself onto the stack at
lines 280-282 before the flush at lines 286-290) and once directly at line
295 — contradicting the claim that the accepted entry is forwarded exactly
once after its buffered ancestors. -/
theorem claim_C1_accepted_dir_forwarded_twice :
    (runLoop cfgMetaAll initState [.msg (.stat (some statDir))]).state.feed =
      [⟨"dir", statDir⟩, ⟨"dir", statDir⟩] := by decide

/-- **C6**: a non-empty `Stat` whose wire path does not round-trip through the
platform path conversion aborts the transfer with the typed
path error referencing the offending path, with the receiver state untouched:
the entry is not validated, assigned no identifier, and not forwarded. -/
theorem claim_C6_unrepresentable_path (cfg : Config) (s : RState) (st0 : Stat)
    (rest : List RecvEvent)
    (h : toSlash cfg.sep (fromSlash cfg.sep st0.path) ≠ st0.path) :
    handleStat cfg s st0 = .error (.unrepresentablePath st0.path) ∧
    runLoop cfg s (.msg (.stat (some st0)) :: rest) =
      .failed (.unrepresentablePath st0.path) s := by
  have h1 : handleStat cfg s st0 = .error (.unrepresentablePath st0.path) := by
    unfold handleStat
    rw [if_pos h]
  exact ⟨h1, by rw [runLoop_stat, h1]⟩

/-- **C6** witness: on a `\`-separated platform the wire path `foo/bar\baz`
fails the round-trip and is rejected with the typed path error. -/
theorem claim_C6_witness :
    handleStat cfgWin initState statBackslash =
      .error (.unrepresentablePath "foo/bar\\baz") :=
  (claim_C6_unrepresentable_path cfgWin initState statBackslash []
    (by decide)).1

/-- **C7** (amended): an `Error` packet aborts immediately; the failure cause
is the carried message wrapped by the dispatch loop as
`error from sender: <message>` — the carried text appears verbatim as the
suffix of the observed error text, not as the whole text. -/
theorem claim_C7_error_packet (cfg : Config) (s : RState) (m : String)
    (rest : List RecvEvent) :
    runLoop cfg s (.msg (.err m) :: rest) = .failed (.fromSender m) s ∧
    (Err.fromSender m).message = "error from sender: " ++ m :=
  ⟨rfl, rfl⟩

/-- **C7** (counterexample to the claim as stated): the error text observed by
the caller for an `Error` packet carrying `boom` is
`error from sender: boom`, which is not equal to the carried text `boom`. -/
theorem claim_C7_counterexample :
    runLoop cfgUnix initState [.msg (.err "boom")] =
      .failed (.fromSender "boom") initState ∧
    (Err.fromSender "boom").message ≠ "boom" :=
  ⟨rfl, by decide⟩

/-- **C2**: for every non-empty `Stat` entry the receiver processes (its path
representable and not skipped as the reserved metadata name), the ordering
validator and then the hardlink validator are consulted before the entry is
forwarded: an ordering rejection aborts the transfer with that error and the
state — in particular the consumer feed — unchanged (the hardlink validator's
verdict is never consulted); a hardlink rejection after an ordering acceptance
likewise aborts unforwarded; on success both validators' updated states are
recorded; and consequently a path not strictly lexicographically greater than
the previously seen one is rejected. -/
theorem claim_C2_validators_gate_forwarding (cfg : Config) (s : RState)
    (st0 : Stat) (rest : List RecvEvent)
    (hrt : toSlash cfg.sep (fromSlash cfg.sep st0.path) = st0.path)
    (hskip : cfg.metadataOnly.isSome = true →
      fromSlash cfg.sep st0.path ≠ metadataPath) :
    (∀ e, s.ov.handleChange (fromSlash cfg.sep st0.path) = .error e →
      handleStat cfg s st0 = .error e ∧
      runLoop cfg s (.msg (.stat (some st0)) :: rest) = .failed e s) ∧
    (∀ ov' e, s.ov.handleChange (fromSlash cfg.sep st0.path) = .ok ov' →
      s.hv.handleChange (fromSlash cfg.sep st0.path) (rewriteStat cfg.sep st0) =
        .error e →
      handleStat cfg s st0 = .error e ∧
      runLoop cfg s (.msg (.stat (some st0)) :: rest) = .failed e s) ∧
    (∀ s', handleStat cfg s st0 = .ok s' →
      s.ov.handleChange (fromSlash cfg.sep st0.path) = .ok s'.ov ∧
      s.hv.handleChange (fromSlash cfg.sep st0.path) (rewriteStat cfg.sep st0) =
        .ok s'.hv) ∧
    (∀ l, s.ov.last = some l →
      pathLess l (fromSlash cfg.sep st0.path) = false →
      runLoop cfg s (.msg (.stat (some st0)) :: rest) =
        .failed (.changesOutOfOrder (fromSlash cfg.sep st0.path) l) s) := by
  have part1 : ∀ e, s.ov.handleChange (fromSlash cfg.sep st0.path) = .error e →
      handleStat cfg s st0 = .error e ∧
      runLoop cfg s (.msg (.stat (some st0)) :: rest) = .failed e s := by
    intro e he
    have h1 : handleStat cfg s st0 = .error e := by
      cases hmo : cfg.metadataOnly with
      | none =>
        rw [handleStat_eq_none cfg s st0 hrt hmo]
        exact statStep_ov_error cfg s st0 false false e he
      | some filt =>
        rw [handleStat_eq_some cfg s st0 filt hrt hmo
          (hskip (by rw [hmo]; rfl))]
        exact statStep_ov_error cfg
          { s with metadataBuffer :=
              s.metadataBuffer ++ le32 (cfg.marshal st0).length ++ cfg.marshal st0 }
          st0 true (!filt (fromSlash cfg.sep st0.path) st0) e he
    exact ⟨h1, by rw [runLoop_stat, h1]⟩
  refine ⟨part1, ?_, ?_, ?_⟩
  · intro ov' e hov hhv
    have h1 : handleStat cfg s st0 = .error e := by
      cases hmo : cfg.metadataOnly with
      | none =>
        rw [handleStat_eq_none cfg s st0 hrt hmo]
        exact statStep_hv_error cfg s st0 false false ov' e hov hhv
      | some filt =>
        rw [handleStat_eq_some cfg s st0 filt hrt hmo
          (hskip (by rw [hmo]; rfl))]
        exact statStep_hv_error cfg
          { s with metadataBuffer :=
              s.metadataBuffer ++ le32 (cfg.marshal st0).length ++ cfg.marshal st0 }
          st0 true (!filt (fromSlash cfg.sep st0.path) st0) ov' e hov hhv
    exact ⟨h1, by rw [runLoop_stat, h1]⟩
  · intro s' hok
    obtain ⟨ov', hv', hov, hhv, hsov, hshv, -⟩ :=
      handleStat_ok_cases cfg s st0 hskip hok
    rw [hsov, hshv]
    exact ⟨hov, hhv⟩
  · intro l hl hnl
    refine (part1 (.changesOutOfOrder (fromSlash cfg.sep st0.path) l) ?_).2
    unfold Validator.handleChange
    rw [hl]
    exact if_neg (by rw [hnl]; exact Bool.false_ne_true)

/-- **C2** witness: with the last-seen path `b`, the out-of-order entry `a`
is rejected and not forwarded. -/
theorem claim_C2_witness :
    runLoop cfgUnix { initState with ov := ⟨some "b"⟩ }
        [.msg (.stat (some statA))] =
      .failed (.changesOutOfOrder "a" "b") { initState with ov := ⟨some "b"⟩ } :=
  (claim_C2_validators_gate_forwarding cfgUnix
    { initState with ov := ⟨some "b"⟩ } statA [] (by decide)
    (by intro h; cases h)).2.2.2 "b" rfl (by decide)

/-- **C3**: identifiers are assigned sequentially from 0 in consumption order:
the fresh receiver starts its counter at 0, every successfully consumed
non-empty (non-reserved) `Stat` record increments the counter by exactly one
regardless of the entry's type, and any entry newly recorded in the pending
path-to-identifier table received the pre-increment counter value and is
content-eligible (a regular file). -/
theorem claim_C3_sequential_identifiers (cfg : Config) (s s' : RState)
    (st0 : Stat)
    (hskip : cfg.metadataOnly.isSome = true →
      fromSlash cfg.sep st0.path ≠ metadataPath)
    (hok : handleStat cfg s st0 = .ok s') :
    initState.counter = 0 ∧
    s'.counter = s.counter + 1 ∧
    (∀ kv ∈ s'.files, kv ∈ s.files ∨
      (kv = (fromSlash cfg.sep st0.path, s.counter) ∧
        fileCanRequestData st0.mode = true)) := by
  obtain ⟨ov', hv', hov, hhv, hsov, hshv, hcnt, hpipes, hfc, hrest⟩ :=
    handleStat_ok_cases cfg s st0 hskip hok
  refine ⟨rfl, hcnt, ?_⟩
  intro kv hkv
  have hfiles : s'.files = s.files ∨
      (s'.files = insertKey s.files (fromSlash cfg.sep st0.path) s.counter ∧
        fileCanRequestData st0.mode = true) := by
    cases hmo : cfg.metadataOnly with
    | none =>
      rw [hmo] at hrest
      obtain ⟨-, -, hf, -⟩ := hrest
      by_cases hel : fileCanRequestData st0.mode = true
      · right; rw [hf, if_pos hel]; exact ⟨rfl, hel⟩
      · left; rw [hf, if_neg hel]
    | some filt =>
      rw [hmo] at hrest
      obtain ⟨-, hacc, hrej⟩ := hrest
      cases hfl : filt (fromSlash cfg.sep st0.path) st0 with
      | true =>
        obtain ⟨-, hf, -⟩ := hacc hfl
        by_cases hel : fileCanRequestData st0.mode = true
        · right; rw [hf, if_pos hel]; exact ⟨rfl, hel⟩
        · left; rw [hf, if_neg hel]
      | false =>
        obtain ⟨-, hf, -⟩ := hrej hfl
        left; exact hf
  rcases hfiles with hf | ⟨hf, hel⟩
  · exact Or.inl (hf ▸ hkv)
  · rw [hf] at hkv
    rcases mem_insertKey hkv with h | h
    · exact Or.inr ⟨h, hel⟩
    · exact Or.inl h

/-- The receiver state after consuming the single regular-file entry `a` on a
fresh unix receiver without a metadata filter. -/
def stateAfterA : RState :=
  { initState with files := [("a", 0)], counter := 1, ov := ⟨some "a"⟩, hv := ⟨["a"]⟩, feed := [⟨"a", statA⟩] }

/-- **C3** witness: consuming the first entry `a` moves the counter from 0 to
1 and records `a` at identifier 0. -/
theorem claim_C3_witness :
    stateAfterA.counter = initState.counter + 1 :=
  (claim_C3_sequential_identifiers cfgUnix initState stateAfterA statA
    (by intro h; cases h) (by rfl)).2.1

/-- **C4**: the content-pull callback errors for a path absent from the
pending identifier table without sending anything; for a present path it
removes the table entry before the `Request` is sent (the returned identifier
models the `Request`), so a second invocation for the same path always
errors — each FileIdentifier is requested at most once; and on normal
completion (sink closed without error) the identifier's sink-table entry is
removed. -/
theorem claim_C4_request_at_most_once (s : RState) (p : String)
    (ce ce2 : Option String) :
    (lookupKey s.files p = none →
      asyncDataStart s p ce = .error (.invalidFileRequestPath p)) ∧
    (∀ id, lookupKey s.files p = some id →
      asyncDataStart s p ce = .ok (asyncDataStarted s p id ce, id) ∧
      lookupKey (asyncDataStarted s p id ce).files p = none ∧
      asyncDataStart (asyncDataStarted s p id ce) p ce2 =
        .error (.invalidFileRequestPath p)) ∧
    (∀ id, lookupKey (asyncDataFinish s id).pipes id = none) := by
  refine ⟨fun h => ?_, fun id h => ?_, fun id => ?_⟩
  · unfold asyncDataStart
    rw [h]
  · have hrm : lookupKey (asyncDataStarted s p id ce).files p = none :=
      lookupKey_removeKey_self s.files p
    refine ⟨?_, hrm, ?_⟩
    · unfold asyncDataStart
      rw [h]
    · unfold asyncDataStart
      rw [hrm]
  · exact lookupKey_removeKey_self s.pipes id

/-- A receiver state with one pending file `a` at identifier 0. -/
def stateOnePending : RState := { initState with files := [("a", 0)] }

/-- **C4** witness: requesting `a` consumes its pending entry; requesting it
again errors. -/
theorem claim_C4_witness :
    asyncDataStart stateOnePending "a" none =
      .ok (asyncDataStarted stateOnePending "a" 0 none, 0) ∧
    asyncDataStart (asyncDataStarted stateOnePending "a" 0 none) "a" none =
      .error (.invalidFileRequestPath "a") :=
  ⟨((claim_C4_request_at_most_once stateOnePending "a" none none).2.1 0 rfl).1,
   ((claim_C4_request_at_most_once stateOnePending "a" none none).2.1 0 rfl).2.2⟩

/-- **C5**: a `Data` packet for an identifier with no open sink is a protocol
error; a non-empty chunk writes through to the sink; a zero-length chunk
closes the sink, propagating the sink's close error if any, and is terminal:
after a successful close every further `Data` packet for that identifier
errors, both before the blocked callback completes (write/close on a closed
sink) and after it completes and removes the sink entry (unknown identifier
protocol error). -/
theorem claim_C5_data_demux (s : RState) (id : Nat) (sink : Sink)
    (chunk : List Nat) :
    (lookupKey s.pipes id = none →
      handleData s id chunk = .error (.invalidFileRequestID id)) ∧
    (lookupKey s.pipes id = some sink → sink.closed = false → chunk ≠ [] →
      handleData s id chunk =
        .ok { s with pipes := insertKey s.pipes id { sink with written := sink.written ++ chunk } }) ∧
    (lookupKey s.pipes id = some sink → sink.closed = false →
      (∀ e, sink.closeErr = some e →
        handleData s id [] = .error (.sinkCloseError e)) ∧
      (sink.closeErr = none →
        handleData s id [] =
          .ok { s with pipes := insertKey s.pipes id { sink with closed := true } } ∧
        (∀ chunk2, ∃ e2,
          handleData { s with pipes := insertKey s.pipes id { sink with closed := true } } id chunk2 = .error e2) ∧
        (∀ chunk2,
          handleData (asyncDataFinish { s with pipes := insertKey s.pipes id { sink with closed := true } } id) id chunk2 =
            .error (.invalidFileRequestID id)))) := by
  refine ⟨fun h => ?_, fun h hcl hne => ?_, fun h hcl => ⟨fun e he => ?_, fun hce => ⟨?_, fun chunk2 => ?_, fun chunk2 => ?_⟩⟩⟩
  · simp [handleData, h]
  · have hch : chunk.isEmpty = false := by
      cases chunk with
      | nil => exact absurd rfl hne
      | cons a l => rfl
    simp [handleData, h, hch, hcl]
  · simp [handleData, h, hcl, he]
  · simp [handleData, h, hcl, hce]
  · have hlk : lookupKey (insertKey s.pipes id { sink with closed := true }) id =
        some { sink with closed := true } :=
      lookupKey_insertKey_self s.pipes id _
    cases chunk2 with
    | nil => exact ⟨.doubleClose id, by simp [handleData, hlk]⟩
    | cons b l => exact ⟨.writeAfterClose id, by simp [handleData, hlk]⟩
  · have hgone : lookupKey (asyncDataFinish { s with pipes := insertKey s.pipes id { sink with closed := true } } id).pipes id = none :=
      lookupKey_removeKey_self _ id
    simp [handleData, hgone]

/-- A receiver state with one open sink registered for identifier 0. -/
def stateOneSink : RState := { initState with pipes := [(0, ⟨[], false, none⟩)] }

/-- **C5** witness: a non-empty chunk for identifier 0 writes through to the
open sink. -/
theorem claim_C5_witness :
    handleData stateOneSink 0 [7] =
      .ok { stateOneSink with pipes := insertKey stateOneSink.pipes 0 ⟨[7], false, none⟩ } :=
  (claim_C5_data_demux stateOneSink 0 ⟨[], false, none⟩ [7]).2.1 rfl rfl
    (by intro h; cases h)

/-- **C9**: when a metadata-only pre-filter is configured, (1) a `Stat` entry
carrying the reserved metadata filename is skipped outright — the receiver
state is returned untouched, so nothing is buffered, validated, identified or
forwarded; and (2) on full successful completion the accumulated metadata
buffer is persisted as a single file under the reserved name inside the
destination root, preceded by the removal of any pre-existing colliding
entry. -/
theorem claim_C9_reserved_metadata_name (cfg : Config)
    (f : String → Stat → Bool) (s sFinal : RState) (st0 : Stat)
    (dest : String) (events : List RecvEvent)
    (hmo : cfg.metadataOnly = some f)
    (hrt : toSlash cfg.sep (fromSlash cfg.sep st0.path) = st0.path)
    (hpath : fromSlash cfg.sep st0.path = metadataPath)
    (hrun : runLoop cfg initState events = .success sFinal) :
    handleStat cfg s st0 = .ok s ∧
    runReceiver cfg dest events =
      (.success sFinal,
        [.remove (joinPath cfg.sep dest metadataPath),
         .writeFile (joinPath cfg.sep dest metadataPath) sFinal.metadataBuffer]) := by
  constructor
  · unfold handleStat
    rw [if_neg (fun hc => hc hrt), hmo]
    exact if_pos hpath
  · have hsome : cfg.metadataOnly.isSome = true := by rw [hmo]; rfl
    unfold runReceiver
    rw [hrun]
    simp [hsome]

/-- The reserved metadata filename arriving as a wire entry. -/
def statReserved : Stat :=
  { path := ".fsutil-metadata", mode := 420, size := 9, linkname := "" }

/-- **C9** witness: on a metadata-only receiver the reserved entry is skipped
and an immediately-finished transfer persists the (empty) metadata log under
`d/.fsutil-metadata` after removing any pre-existing entry. -/
theorem claim_C9_witness :
    handleStat cfgMetaAll initState statReserved = .ok initState ∧
    runReceiver cfgMetaAll "d" [.msg .fin, .eof] =
      (.success initState,
        [.remove "d/.fsutil-metadata",
         .writeFile "d/.fsutil-metadata" initState.metadataBuffer]) :=
  ⟨(claim_C9_reserved_metadata_name cfgMetaAll (fun _ _ => true) initState
      initState statReserved "d" [.msg .fin, .eof] rfl (by decide) (by decide)
      rfl).1,
   (claim_C9_reserved_metadata_name cfgMetaAll (fun _ _ => true) initState
      initState statReserved "d" [.msg .fin, .eof] rfl (by decide) (by decide)
      rfl).2⟩

/-- **C10**: with a metadata-only pre-filter configured, a non-reserved
representable entry is bookkept identically whether the filter accepts or
rejects it: the two runs agree on the metadata buffer (the length-prefixed
serialized record is appended in both), on the incremented counter and on both
validator verdicts and updated states; and on success the filter-rejected run
leaves the pending-request table and the consumer feed unchanged — only those
two components (and the ancestor stack they serve) depend on the filter
outcome. -/
theorem claim_C10_bookkeeping_filter_independent (cfg : Config)
    (fA fR : String → Stat → Bool) (s : RState) (st0 : Stat)
    (hrt : toSlash cfg.sep (fromSlash cfg.sep st0.path) = st0.path)
    (hpath : fromSlash cfg.sep st0.path ≠ metadataPath)
    (hA : fA (fromSlash cfg.sep st0.path) st0 = true)
    (hR : fR (fromSlash cfg.sep st0.path) st0 = false) :
    (handleStat { cfg with metadataOnly := some fA } s st0).map projBook =
      (handleStat { cfg with metadataOnly := some fR } s st0).map projBook ∧
    (∀ s', handleStat { cfg with metadataOnly := some fA } s st0 = .ok s' ∨
           handleStat { cfg with metadataOnly := some fR } s st0 = .ok s' →
      s'.metadataBuffer =
        s.metadataBuffer ++ le32 (cfg.marshal st0).length ++ cfg.marshal st0 ∧
      s'.counter = s.counter + 1 ∧
      s.ov.handleChange (fromSlash cfg.sep st0.path) = .ok s'.ov ∧
      s.hv.handleChange (fromSlash cfg.sep st0.path) (rewriteStat cfg.sep st0) =
        .ok s'.hv) ∧
    (∀ sR, handleStat { cfg with metadataOnly := some fR } s st0 = .ok sR →
      sR.files = s.files ∧ sR.feed = s.feed) := by
  have hA' : handleStat { cfg with metadataOnly := some fA } s st0 =
      statStep { cfg with metadataOnly := some fA }
        { s with metadataBuffer :=
            s.metadataBuffer ++ le32 (cfg.marshal st0).length ++ cfg.marshal st0 }
        st0 true false := by
    rw [handleStat_eq_some { cfg with metadataOnly := some fA } s st0 fA hrt
      rfl hpath, hA, Bool.not_true]
  have hR' : handleStat { cfg with metadataOnly := some fR } s st0 =
      statStep { cfg with metadataOnly := some fR }
        { s with metadataBuffer :=
            s.metadataBuffer ++ le32 (cfg.marshal st0).length ++ cfg.marshal st0 }
        st0 true true := by
    rw [handleStat_eq_some { cfg with metadataOnly := some fR } s st0 fR hrt
      rfl hpath, hR, Bool.not_false]
  cases hov : s.ov.handleChange (fromSlash cfg.sep st0.path) with
  | error e =>
    have heA : handleStat { cfg with metadataOnly := some fA } s st0 = .error e := by
      rw [hA']
      exact statStep_ov_error { cfg with metadataOnly := some fA }
        { s with metadataBuffer :=
            s.metadataBuffer ++ le32 (cfg.marshal st0).length ++ cfg.marshal st0 }
        st0 true false e hov
    have heR : handleStat { cfg with metadataOnly := some fR } s st0 = .error e := by
      rw [hR']
      exact statStep_ov_error { cfg with metadataOnly := some fR }
        { s with metadataBuffer :=
            s.metadataBuffer ++ le32 (cfg.marshal st0).length ++ cfg.marshal st0 }
        st0 true true e hov
    refine ⟨by rw [heA, heR], ?_, ?_⟩
    · intro s' hs'
      rcases hs' with hs' | hs'
      · rw [heA] at hs'; cases hs'
      · rw [heR] at hs'; cases hs'
    · intro sR hs'
      rw [heR] at hs'; cases hs'
  | ok ov' =>
    cases hhv : s.hv.handleChange (fromSlash cfg.sep st0.path)
        (rewriteStat cfg.sep st0) with
    | error e =>
      have heA : handleStat { cfg with metadataOnly := some fA } s st0 = .error e := by
        rw [hA']
        exact statStep_hv_error { cfg with metadataOnly := some fA }
          { s with metadataBuffer :=
              s.metadataBuffer ++ le32 (cfg.marshal st0).length ++ cfg.marshal st0 }
          st0 true false ov' e hov hhv
      have heR : handleStat { cfg with metadataOnly := some fR } s st0 = .error e := by
        rw [hR']
        exact statStep_hv_error { cfg with metadataOnly := some fR }
          { s with metadataBuffer :=
              s.metadataBuffer ++ le32 (cfg.marshal st0).length ++ cfg.marshal st0 }
          st0 true true ov' e hov hhv
      refine ⟨by rw [heA, heR], ?_, ?_⟩
      · intro s' hs'
        rcases hs' with hs' | hs'
        · rw [heA] at hs'; cases hs'
        · rw [heR] at hs'; cases hs'
      · intro sR hs'
        rw [heR] at hs'; cases hs'
    | ok hv' =>
      have hokA : handleStat { cfg with metadataOnly := some fA } s st0 =
          .ok { s with
            files := if fileCanRequestData st0.mode
              then insertKey s.files (fromSlash cfg.sep st0.path) s.counter
              else s.files,
            metadataBuffer :=
              s.metadataBuffer ++ le32 (cfg.marshal st0).length ++ cfg.marshal st0,
            counter := s.counter + 1, ov := ov', hv := hv',
            metadataParents := [],
            feed := s.feed ++
              (if isDirMode st0.mode
                then (⟨fromSlash cfg.sep st0.path, rewriteStat cfg.sep st0⟩ :: trimParents (dirPath cfg.sep (fromSlash cfg.sep st0.path)) s.metadataParents)
                else trimParents (dirPath cfg.sep (fromSlash cfg.sep st0.path)) s.metadataParents).reverse ++
              [⟨fromSlash cfg.sep st0.path, rewriteStat cfg.sep st0⟩] } := by
        rw [hA']
        exact statStep_ok_metaAccept { cfg with metadataOnly := some fA }
          { s with metadataBuffer :=
              s.metadataBuffer ++ le32 (cfg.marshal st0).length ++ cfg.marshal st0 }
          st0 ov' hv' hov hhv
      have hokR : handleStat { cfg with metadataOnly := some fR } s st0 =
          .ok { s with
            metadataBuffer :=
              s.metadataBuffer ++ le32 (cfg.marshal st0).length ++ cfg.marshal st0,
            counter := s.counter + 1, ov := ov', hv := hv',
            metadataParents :=
              (if isDirMode st0.mode
                then (⟨fromSlash cfg.sep st0.path, rewriteStat cfg.sep st0⟩ :: trimParents (dirPath cfg.sep (fromSlash cfg.sep st0.path)) s.metadataParents)
                else trimParents (dirPath cfg.sep (fromSlash cfg.sep st0.path)) s.metadataParents) } := by
        rw [hR']
        exact statStep_ok_metaOnly { cfg with metadataOnly := some fR }
          { s with metadataBuffer :=
              s.metadataBuffer ++ le32 (cfg.marshal st0).length ++ cfg.marshal st0 }
          st0 ov' hv' hov hhv
      refine ⟨by rw [hokA, hokR]; rfl, ?_, ?_⟩
      · intro s' hs'
        rcases hs' with hs' | hs'
        · rw [hokA] at hs'
          injection hs' with hs'
          subst hs'
          exact ⟨rfl, rfl, rfl, rfl⟩
        · rw [hokR] at hs'
          injection hs' with hs'
          subst hs'
          exact ⟨rfl, rfl, rfl, rfl⟩
      · intro sR hs'
        rw [hokR] at hs'
        injection hs' with hs'
        subst hs'
        exact ⟨rfl, rfl⟩

/-- **C10** witness: on a fresh metadata-only receiver the entry `a` yields
the same bookkeeping under an all-accepting and an all-rejecting filter. -/
theorem claim_C10_witness :
    (handleStat { cfgUnix with metadataOnly := some fun _ _ => true }
        initState statA).map projBook =
      (handleStat { cfgUnix with metadataOnly := some fun _ _ => false }
        initState statA).map projBook :=
  (claim_C10_bookkeeping_filter_independent cfgUnix (fun _ _ => true)
    (fun _ _ => false) initState statA (by decide) (by decide) rfl rfl).1

/-- **C8**: after a `Finish` packet the dispatch loop only receives and
discards messages — the state is unchanged no matter what messages follow, no
further packet is dispatched, the phase completes successfully exactly when
the stream reports end-of-stream, and any other receive failure during the
drain is returned as the error. -/
theorem claim_C8_fin_drains_until_eof (cfg : Config) (s : RState)
    (rest : List RecvEvent) :
    runLoop cfg s (.msg .fin :: rest) =
      match firstCtl rest with
      | none => .incomplete s
      | some none => .success s
      | some (some e) => .failed (.recvFail e) s := by
  have h0 : runLoop cfg s (.msg .fin :: rest) = drainFin s rest := rfl
  rw [h0]; clear h0
  induction rest with
  | nil => rfl
  | cons ev rest ih =>
    cases ev with
    | msg p => exact ih
    | eof => rfl
    | fail e => rfl

end Fsutil
